import Mathlib

/-!
Verification development for the opendrop repository (an open AirDrop peer).

The Python sources under `opendrop/` are shallowly embedded below:
pure fragments become Lean functions over `Nat`, `String`, `List` and
`Option`; byte strings are `List Nat`; Python `None` becomes `Option.none`;
code that may raise an uncaught exception returns `Except Unit _`; the
network and the standard-library plist parser are abstracted as explicit
parameters or as an outcome datatype.
-/

namespace Opendrop

/-- Outcome of one HTTPS POST exchange as seen by `AirDropClient.send_POST`
(client.py): either some exception was raised during connection setup,
request transmission or response reading (`err`), or a response with a
status code and a body arrived (`resp`). -/
inductive NetOutcome where
  | err : NetOutcome
  | resp : Nat → List Nat → NetOutcome
deriving DecidableEq, Repr

/-- Embedding of `AirDropClient.send_POST` (client.py, lines 530-604).
The whole body runs under `try ... except Exception: return False, None`;
on a response, `status` is `True` exactly when the HTTP status is 200, and
the response bytes are returned in either case. -/
def send_POST : NetOutcome → Bool × Option (List Nat)
  | .err => (false, none)
  | .resp status body => (status == 200, some body)

/-- Embedding of `AirDropClient.send_discover` (client.py, lines 607-680).
The HTTP status flag returned by `send_POST` is discarded (the source binds
it to `_`); if response bytes are present they are fed to `plistlib.loads`
(abstracted by the `parse` parameter, `none` meaning the parser raises) and
the value of key `ReceiverComputerName` is returned via `Option.get`-like
dictionary lookup; absent response bytes yield Python `None`. An uncaught
parser exception is `Except.error`. -/
def send_discover (parse : List Nat → Option (List (String × String)))
    (net : NetOutcome) : Except Unit (Option String) :=
  match (send_POST net).2 with
  | none => .ok none
  | some responseBytes =>
    match parse responseBytes with
    | none => .error ()
    | some dict => .ok (dict.lookup "ReceiverComputerName")

/-- Python truthiness of an optional string: `bool(None) = bool("") = False`,
non-empty strings are truthy. Used by `discoverable = bool(receiver_name)`
in cli.py line 329. -/
def pyTruthyStrOpt : Option String → Bool
  | none => false
  | some s => !s.data.isEmpty

/-- Constant `AirDropReceiverFlags.SUPPORTS_MIXED_TYPES` (config.py). -/
def SUPPORTS_MIXED_TYPES : Nat := 0x08

/-- Constant `AirDropReceiverFlags.SUPPORTS_DISCOVER_MAYBE` (config.py). -/
def SUPPORTS_DISCOVER_MAYBE : Nat := 0x80

/-- Embedding of the discovery part of `AirDropCli._send_discover`
(cli.py, lines 302-329): when the advertised `flags` have the
`SUPPORTS_DISCOVER_MAYBE` bit, a Discover request is made and
`discoverable = bool(receiver_name)`; otherwise `receiver_name = None`.
The result pairs the stored `name` field with the stored `discoverable`
field of the node record. -/
def discoverNameAndFlag (flags : Nat)
    (parse : List Nat → Option (List (String × String)))
    (net : NetOutcome) : Except Unit (Option String × Bool) :=
  if flags &&& SUPPORTS_DISCOVER_MAYBE ≠ 0 then
    match send_discover parse net with
    | .error e => .error e
    | .ok receiver_name => .ok (receiver_name, pyTruthyStrOpt receiver_name)
  else
    .ok (none, false)

/-- A concrete stand-in for `plistlib.loads` used in closed statements:
the byte string `[0]` decodes to a one-key plist dictionary carrying
`ReceiverComputerName`, everything else fails to parse. -/
def cxParse : List Nat → Option (List (String × String))
  | [0] => some [("ReceiverComputerName", "Evil")]
  | _ => none

/-- Embedding of `AirDropClient.send_upload` (client.py, lines 820-931).
In URL mode the function returns immediately with Python `None` and no
Upload POST is issued; otherwise the archive is produced and POSTed, and
the `success` flag of `send_POST` is returned. The second component
records whether an Upload POST request was issued. -/
def send_upload (is_url : Bool) (net : NetOutcome) : Option Bool × Bool :=
  if is_url then (none, false)
  else ((send_POST net).1, true)

/-- Python truthiness test `not x` for `x : Option Bool`:
`not None = True`, `not True = False`, `not False = True`. -/
def pyNotOptBool : Option Bool → Bool
  | none => true
  | some b => !b

/-- The message `AirDropCli.send` (cli.py, lines 499-512) ends with. -/
inductive SendReport where
  | declined
  | uploadFailed
  | uploadSuccessful
deriving DecidableEq, Repr

/-- Embedding of `AirDropCli.send` (cli.py, lines 499-512) after the
receiver record has been found: `send_ask` returns the `success` flag of
the Ask POST; `if not ...send_ask` reports `Receiver declined`;
`if not ...send_upload` reports `Uploading has failed`; otherwise
`Uploading has been successful`. The second component records whether an
Upload POST request was issued. -/
def cliSend (is_url : Bool) (askNet uploadNet : NetOutcome) :
    SendReport × Bool :=
  let askOk := (send_POST askNet).1
  if !askOk then (.declined, false)
  else
    let u := send_upload is_url uploadNet
    if pyNotOptBool u.1 then (.uploadFailed, u.2)
    else (.uploadSuccessful, u.2)

/-- The default capability bitmap set unconditionally by
`AirDropConfig.__init__` (config.py, lines 252-256). -/
def configFlags : Nat := SUPPORTS_MIXED_TYPES ||| SUPPORTS_DISCOVER_MAYBE

/-- Embedding of `AirDropServer.get_properties` (server.py, lines 197-199):
the TXT record dictionary `{b"flags": str(flags).encode("utf-8")}`. -/
def get_properties (flags : Nat) : List (String × String) :=
  [("flags", toString flags)]

/-- Embedding of `AirDropServer._init_server` (server.py, lines 170-187),
restricted to the bind logic: `busy p = true` means binding port `p`
raises `OSError`. The source tries the configured port, on `OSError`
increments the port once and retries; a failure of the retry is not
caught and propagates (`Except.error`). -/
def init_server (busy : Nat → Bool) (port : Nat) : Except Unit Nat :=
  if busy port = false then .ok port
  else if busy (port + 1) = false then .ok (port + 1)
  else .error ()

/-- Classification of a host string by the standard-library
`ipaddress.ip_address`: a valid IPv4 literal, a valid IPv6 literal, or
neither (in which case `ip_address` raises `ValueError`). The classifier
is an explicit parameter since `ipaddress` is outside this repository. -/
inductive IPKind where
  | v4
  | v6
  | invalid
deriving DecidableEq, Repr

/-- Python's substring test `"%" in host` for a one-character needle:
membership of the character among the characters of the string. -/
def pyInStr (c : Char) (s : String) : Bool :=
  s.data.contains c

/-- Embedding of the host-rewriting step of `HTTPSConnectionAWDL.__init__`
(client.py, lines 953-984): with an interface name set, a host that does
not contain `%` is classified by `ipaddress.ip_address`; an IPv6 literal
gets `%<interface_name>` appended, an IPv4 literal is kept, and an invalid
literal makes `ip_address` raise `ValueError` (`Except.error`). A host
containing `%` is never touched nor classified. -/
def awdlHost (ipKind : String → IPKind) (interface_name : Option String)
    (host : String) : Except Unit String :=
  match interface_name with
  | none => .ok host
  | some iface =>
    if pyInStr '%' host then .ok host
    else
      match ipKind host with
      | .invalid => .error ()
      | .v6 => .ok (host ++ "%" ++ iface)
      | .v4 => .ok host

/-- A concrete stand-in for the `ipaddress.ip_address` classification used
in closed statements. -/
def cxIPKind (host : String) : IPKind :=
  if host = "fe80::f2ee" then .v6
  else if host = "10.0.0.7" then .v4
  else .invalid

/-- The three request headers consulted by
`AirDropServerHandler.handle_upload` (server.py); `Option.none` models an
absent header, the Python source reads them with `.get(name, "")`. Header
name lookup in `http.server` is case-insensitive, so one field per header
suffices. -/
structure UploadHeaders where
  contentType : Option String
  expect : Option String
  transferEncoding : Option String

/-- Python `str.lower()` restricted to the ASCII header values the server
compares against. -/
def pyLower (s : String) : String :=
  String.mk (s.data.map Char.toLower)

/-- One externally visible step taken by `handle_upload` before and
instead of decoding the body. -/
inductive UploadStep where
  | response406close
  | interim100
  | response400close
  | readChunkedBody
deriving DecidableEq, Repr

/-- Embedding of the precondition phase of
`AirDropServerHandler.handle_upload` (server.py, lines 319-344): first the
`Content-Type` check (406 with `Connection: close`, then return), then the
`Expect: 100-continue` interim response, then the `Transfer-Encoding`
check (400 with `Connection: close`, then return); only after all three
does the handler read the chunked body. -/
def handle_upload (h : UploadHeaders) : List UploadStep :=
  if pyLower (h.contentType.getD "") ≠ "application/x-cpio" then
    [.response406close]
  else
    let interim :=
      if pyLower (h.expect.getD "") = "100-continue" then [UploadStep.interim100]
      else []
    if pyLower (h.transferEncoding.getD "") ≠ "chunked" then
      interim ++ [.response400close]
    else
      interim ++ [.readChunkedBody]

/-! ### The chunked transfer decoder (`HTTPChunkedReader`, server.py)

Bytes are `Nat`s; the socket file `rfile` is a `List Nat` consumed from
the front. `readline` mirrors Python `file.readline()` (read up to and
including the first newline byte), `pyRstrip` mirrors `bytes.rstrip()`,
and `parseHex` mirrors `int(s, 16)` returning `none` where `int` would
raise. -/

/-- Python `file.readline()`: the returned line includes the terminating
newline byte (10) when present; at end of stream the rest is returned. -/
def readline : List Nat → List Nat × List Nat
  | [] => ([], [])
  | b :: rest =>
    if b = 10 then ([b], rest)
    else
      let p := readline rest
      (b :: p.1, p.2)

/-- ASCII whitespace as stripped by Python `bytes.rstrip()`. -/
def isPySpace (b : Nat) : Bool :=
  b = 9 || b = 10 || b = 11 || b = 12 || b = 13 || b = 32

/-- Python `bytes.rstrip()`: drop trailing whitespace bytes. -/
def pyRstrip (l : List Nat) : List Nat :=
  (l.reverse.dropWhile isPySpace).reverse

/-- Value of one hexadecimal digit byte, as accepted by Python
`int(s, 16)`: `0-9`, `a-f`, `A-F`. -/
def hexVal (b : Nat) : Option Nat :=
  if 48 ≤ b ∧ b ≤ 57 then some (b - 48)
  else if 97 ≤ b ∧ b ≤ 102 then some (b - 87)
  else if 65 ≤ b ∧ b ≤ 70 then some (b - 55)
  else none

/-- Accumulating hexadecimal parser over digit bytes. -/
def parseHexAux : List Nat → Nat → Option Nat
  | [], acc => some acc
  | b :: rest, acc =>
    match hexVal b with
    | none => none
    | some d => parseHexAux rest (acc * 16 + d)

/-- Python `int(s, 16)` on a byte string of hex digits: fails on the empty
string and on any non-digit byte. -/
def parseHex (l : List Nat) : Option Nat :=
  if l.isEmpty then none else parseHexAux l 0

/-- Byte of one hexadecimal digit, lowercase as produced by senders. -/
def hexDigitChar (d : Nat) : Nat :=
  if d < 10 then 48 + d else 87 + d

/-- Fuel-indexed little-endian hexadecimal digits of `n`; `toHexAux n n`
has always enough fuel. -/
def toHexAux : Nat → Nat → List Nat
  | _, 0 => []
  | 0, _ + 1 => []
  | fuel + 1, n + 1 => hexDigitChar ((n + 1) % 16) :: toHexAux fuel ((n + 1) / 16)

/-- Shortest hexadecimal rendering of `n` as digit bytes, most significant
first (the form chunk-length lines take on the wire). -/
def toHex (n : Nat) : List Nat :=
  if n = 0 then [48] else (toHexAux n n).reverse

/-- Wire encoding of one chunk: hex length line, CRLF, payload, CRLF. -/
def encodeChunk (c : List Nat) : List Nat :=
  toHex c.length ++ [13, 10] ++ c ++ [13, 10]

/-- Wire encoding of a whole well-formed chunked body: the chunks in
order, then the zero-length terminating chunk `0 CRLF CRLF`. -/
def encodeChunks (cs : List (List Nat)) : List Nat :=
  (cs.map encodeChunk).flatten ++ [48, 13, 10] ++ [13, 10]

/-- State of `HTTPChunkedReader` (server.py, lines 346-365): the unread
socket bytes, the buffered current chunk (`none` initially, as
`self.chunk = None`), and the running `total` counter. -/
structure ChunkedState where
  rfile : List Nat
  chunk : Option (List Nat)
  total : Nat
deriving DecidableEq, Repr

/-- Embedding of `HTTPChunkedReader._next_chunk`: when the buffered chunk
is `None` or empty, read a line, parse it as hex after `rstrip`, read that
many payload bytes, and consume the trailing CRLF line. A hex parse
failure is the uncaught `ValueError` of `int` (`none`). -/
def nextChunk (s : ChunkedState) : Option ChunkedState :=
  if s.chunk = none ∨ (s.chunk.getD []).length = 0 then
    let r1 := readline s.rfile
    match parseHex (pyRstrip r1.1) with
    | none => none
    | some len =>
      let c := r1.2.take len
      let r2 := r1.2.drop len
      let r3 := readline r2
      some { rfile := r3.2, chunk := some c, total := s.total }
  else
    some s

/-- Embedding of `HTTPChunkedReader.readinto` with a buffer of `bufLen`
bytes: after `_next_chunk`, `min(len(chunk), len(buf))` bytes are copied
out, removed from the buffered chunk, and added to `total`; the copied
bytes and the new state are returned. Returning an empty byte list is the
`RawIOBase` end-of-stream signal. -/
def readinto (s : ChunkedState) (bufLen : Nat) : Option (List Nat × ChunkedState) :=
  match nextChunk s with
  | none => none
  | some s1 =>
    let c := s1.chunk.getD []
    let len := min c.length bufLen
    some (c.take len,
      { rfile := s1.rfile, chunk := some (c.drop len), total := s1.total + len })

/-- The consuming loop of the archive decoder over the reader: call
`readinto` until it delivers zero bytes (end of stream), concatenating
everything delivered. `fuel` bounds the number of calls. -/
def drain : Nat → ChunkedState → Nat → Option (List Nat × ChunkedState)
  | 0, _, _ => none
  | fuel + 1, s, bufLen =>
    match readinto s bufLen with
    | none => none
    | some (out, s1) =>
      if out.isEmpty then some ([], s1)
      else
        match drain fuel s1 bufLen with
        | none => none
        | some (rest, s2) => some (out ++ rest, s2)

/-! ## Theorems -/

/-- Claim C7: the advertised mDNS TXT record is the single key `flags` holding
the decimal rendering of the configured bitmap; the bitmap set by
`AirDropConfig.__init__` (which takes no flags argument, so every
construction uses it) is `SUPPORTS_MIXED_TYPES | SUPPORTS_DISCOVER_MAYBE`
= 0x88, rendered as the string `"136"`. -/
theorem txt_record_single_flags_key :
    (∀ f : Nat, get_properties f = [("flags", toString f)]) ∧
    get_properties configFlags = [("flags", "136")] ∧
    configFlags = SUPPORTS_MIXED_TYPES ||| SUPPORTS_DISCOVER_MAYBE ∧
    configFlags = 136 :=
  ⟨fun _ => rfl, rfl, rfl, rfl⟩

/-- Claim C9: `send_POST` is a total function of the exchange outcome — the
whole body runs inside `try ... except Exception`, so no exception
escapes. Any failure during connection setup, transmission or response
reading returns `(False, None)`; a non-200 response returns
`(False, response_bytes)` with the body still present; a 200 response
returns `(True, response_bytes)`. -/
theorem send_POST_never_raises :
    send_POST .err = (false, none) ∧
    (∀ s b, s ≠ 200 → send_POST (.resp s b) = (false, some b)) ∧
    (∀ b, send_POST (.resp 200 b) = (true, some b)) := by
  refine ⟨rfl, ?_, fun b => rfl⟩
  intro s b hs
  simp [send_POST, hs]

/-- Witness for C9 at a concrete non-200 response. -/
theorem send_POST_never_raises_witness :
    send_POST (.resp 404 [7, 7]) = (false, some [7, 7]) :=
  send_POST_never_raises.2.1 404 [7, 7] (by decide)

/-- Claim C8: `_init_server` tries the configured port; when binding raises
`OSError` it increments the port and retries exactly once on the next
port; when that successor is busy as well, the failure propagates. The
retry window is thus bounded: only `port` and `port + 1` are ever tried. -/
theorem port_retry_bounded (busy : Nat → Bool) (port : Nat) :
    (busy port = false → init_server busy port = .ok port) ∧
    (busy port = true → busy (port + 1) = false →
      init_server busy port = .ok (port + 1)) ∧
    (busy port = true → busy (port + 1) = true →
      init_server busy port = .error ()) := by
  refine ⟨?_, ?_, ?_⟩
  · intro h1; simp [init_server, h1]
  · intro h1 h2; simp [init_server, h1, h2]
  · intro h1 h2; simp [init_server, h1, h2]

/-- Witness for C8: port 8771 busy and 8772 free gives 8772; both busy
fails. -/
theorem port_retry_bounded_witness :
    init_server (fun p => p == 8771) 8771 = .ok 8772 ∧
    init_server (fun _ => true) 8771 = .error () :=
  ⟨(port_retry_bounded (fun p => p == 8771) 8771).2.1 (by decide) (by decide),
   (port_retry_bounded (fun _ => true) 8771).2.2 rfl rfl⟩

/-- Claim C6: with an interface name set, an IPv6 literal host containing no `%`
has `%<interface_name>` appended; a host already containing `%` is left
unchanged (the `ipaddress` classification is not even consulted). -/
theorem ipv6_zone_append (k : String → IPKind) (iface host : String) :
    (pyInStr '%' host = false → k host = .v6 →
      awdlHost k (some iface) host = .ok (host ++ "%" ++ iface)) ∧
    (pyInStr '%' host = true → awdlHost k (some iface) host = .ok host) := by
  constructor
  · intro h1 h2; simp [awdlHost, h1, h2]
  · intro h1; simp [awdlHost, h1]

/-- Witness for C6 at a concrete IPv6 literal and a concrete host that
already carries a zone identifier. -/
theorem ipv6_zone_append_witness :
    awdlHost cxIPKind (some "awdl0") "fe80::f2ee" = .ok "fe80::f2ee%awdl0" ∧
    awdlHost cxIPKind (some "awdl0") "fe80::9%awdl0" = .ok "fe80::9%awdl0" :=
  ⟨(ipv6_zone_append cxIPKind "awdl0" "fe80::f2ee").1 (by decide) (by decide),
   (ipv6_zone_append cxIPKind "awdl0" "fe80::9%awdl0").2 (by decide)⟩

/-- Claim C10: with an interface name set, a host that contains no `%` and is
not a valid IP literal makes `ipaddress.ip_address` raise `ValueError`
inside `HTTPSConnectionAWDL.__init__`, so no connection object is
produced. -/
theorem invalid_host_raises (k : String → IPKind) (iface host : String)
    (h1 : pyInStr '%' host = false) (h2 : k host = .invalid) :
    awdlHost k (some iface) host = .error () := by
  simp [awdlHost, h1, h2]

/-- Witness for C10 at a DNS-style host name. -/
theorem invalid_host_raises_witness :
    awdlHost cxIPKind (some "awdl0") "receiver.local" = .error () :=
  invalid_host_raises cxIPKind "awdl0" "receiver.local" (by decide) (by decide)

/-- Claim C1 (code evaluated at the failing input): in URL mode, after the Ask
exchange returns status 200, no Upload POST is issued (second component
`false`) — but `send_upload` returns Python `None`, which
`if not self.client.send_upload(...)` in `AirDropCli.send` treats as
falsy, so the send is reported as `Uploading has failed` rather than
successful, whatever the unused upload outcome would have been. -/
theorem url_send_skips_upload_but_reports_failure
    (body : List Nat) (uploadNet : NetOutcome) :
    cliSend true (.resp 200 body) uploadNet = (.uploadFailed, false) := by
  simp [cliSend, send_POST, send_upload, pyNotOptBool]

/-- Claim C2 counterexample: a Discover exchange whose response has status 500 —
not a 200 response — but whose plist body carries
`ReceiverComputerName = "Evil"` produces a record with `name = "Evil"` and
`discoverable = true`, because `send_discover` discards the status flag of
`send_POST`. The claim demands `name = None` and `discoverable = false`
for every non-200 outcome. -/
theorem discover_ignores_status_counterexample :
    discoverNameAndFlag 136 cxParse (.resp 500 [0]) = .ok (some "Evil", true) := by
  rfl

/-- Claim C2 as amended: if the exchange yields no response bytes (connection
error or timeout, i.e. `send_POST` returned `(False, None)`) or the parsed
plist lacks the key `ReceiverComputerName`, the record has `name = None`
and `discoverable = false`. The HTTP status is never consulted. -/
theorem discover_failure_yields_none (flags : Nat)
    (parse : List Nat → Option (List (String × String))) (net : NetOutcome)
    (hf : flags &&& SUPPORTS_DISCOVER_MAYBE ≠ 0)
    (hcase : net = .err ∨ ∃ s b d, net = .resp s b ∧ parse b = some d ∧
      d.lookup "ReceiverComputerName" = none) :
    discoverNameAndFlag flags parse net = .ok (none, false) := by
  rcases hcase with hnet | ⟨s, b, d, hnet, hp, hl⟩
  · subst hnet
    simp [discoverNameAndFlag, hf, send_discover, send_POST, pyTruthyStrOpt]
  · subst hnet
    simp [discoverNameAndFlag, hf, send_discover, send_POST, pyTruthyStrOpt, hp, hl]

/-- Witness for the amended C2 at a connection failure and at a missing
key. -/
theorem discover_failure_yields_none_witness :
    discoverNameAndFlag 136 cxParse .err = .ok (none, false) ∧
    discoverNameAndFlag 136 (fun _ => some []) (.resp 200 [0]) = .ok (none, false) :=
  ⟨discover_failure_yields_none 136 cxParse .err (by decide) (Or.inl rfl),
   discover_failure_yields_none 136 (fun _ => some []) (.resp 200 [0]) (by decide)
     (Or.inr ⟨200, [0], [], rfl, rfl, rfl⟩)⟩

/-- Claim C3: for a peer on which a Discover request was performed (the
`SUPPORTS_DISCOVER_MAYBE` bit was set) and which produced a record, the
stored `discoverable` field is `true` if and only if the Discover exchange
yielded a non-empty `ReceiverComputerName` string. -/
theorem discoverable_iff_nonempty_name (flags : Nat)
    (parse : List Nat → Option (List (String × String))) (net : NetOutcome)
    (res : Option String) (out : Option String × Bool)
    (hf : flags &&& SUPPORTS_DISCOVER_MAYBE ≠ 0)
    (hsd : send_discover parse net = .ok res)
    (hout : discoverNameAndFlag flags parse net = .ok out) :
    out.2 = true ↔ ∃ s, res = some s ∧ s ≠ "" := by
  rw [discoverNameAndFlag, if_pos hf, hsd] at hout
  cases hout
  cases res with
  | none => simp [pyTruthyStrOpt]
  | some s =>
    constructor
    · intro hd
      refine ⟨s, rfl, fun he => ?_⟩
      rw [he] at hd
      exact absurd hd (by decide)
    · rintro ⟨s2, hs2, hne⟩
      injection hs2 with hs2
      subst hs2
      show (!s.data.isEmpty) = true
      cases hD : s.data.isEmpty
      · rfl
      · have hnil : s.data = [] := by simpa using hD
        exact absurd (String.ext (hnil.trans rfl)) hne

/-- Witness for C3: a 200 response carrying the non-empty name yields a
record with `discoverable = true`. -/
theorem discoverable_iff_nonempty_name_witness :
    discoverNameAndFlag 136 cxParse (.resp 200 [0]) = .ok (some "Evil", true) ∧
    (((some "Evil", true) : Option String × Bool).2 = true ↔
      ∃ s, (some "Evil" : Option String) = some s ∧ s ≠ "") :=
  ⟨rfl,
   discoverable_iff_nonempty_name 136 cxParse (.resp 200 [0]) (some "Evil")
     (some "Evil", true) (by decide) rfl rfl⟩

/-- Claim C4: `handle_upload` validates its preconditions in order. A
`Content-Type` other than `application/x-cpio` (case-insensitively) is
terminal with a single 406/`Connection: close` response, regardless of the
other headers; with the content type right, `Expect: 100-continue` makes
the interim 100 the first emitted step, after which processing continues;
with the content type right, a `Transfer-Encoding` other than `chunked`
(case-insensitively) ends in a 400/`Connection: close` response. -/
theorem upload_precondition_order (h : UploadHeaders) :
    (pyLower (h.contentType.getD "") ≠ "application/x-cpio" →
      handle_upload h = [.response406close]) ∧
    (pyLower (h.contentType.getD "") = "application/x-cpio" →
      pyLower (h.expect.getD "") = "100-continue" →
      (handle_upload h = [.interim100, .response400close] ∨
        handle_upload h = [.interim100, .readChunkedBody])) ∧
    (pyLower (h.contentType.getD "") = "application/x-cpio" →
      pyLower (h.transferEncoding.getD "") ≠ "chunked" →
      (handle_upload h = [.response400close] ∨
        handle_upload h = [.interim100, .response400close])) := by
  refine ⟨?_, ?_, ?_⟩
  · intro h1; simp [handle_upload, h1]
  · intro h1 h2
    by_cases h3 : pyLower (h.transferEncoding.getD "") = "chunked" <;>
      simp [handle_upload, h1, h2, h3]
  · intro h1 h3
    by_cases h2 : pyLower (h.expect.getD "") = "100-continue" <;>
      simp [handle_upload, h1, h2, h3]

/-- Witness for C4 at three concrete header combinations: wrong content
type (with a chunked transfer encoding left unexamined), the
`Expect: 100-continue` case, and a missing transfer encoding. -/
theorem upload_precondition_order_witness :
    handle_upload ⟨some "application/octet-stream", none, some "chunked"⟩ =
      [.response406close] ∧
    (handle_upload ⟨some "Application/X-CPIO", some "100-Continue", some "Chunked"⟩ =
        [.interim100, .response400close] ∨
      handle_upload ⟨some "Application/X-CPIO", some "100-Continue", some "Chunked"⟩ =
        [.interim100, .readChunkedBody]) ∧
    (handle_upload ⟨some "application/x-cpio", none, none⟩ = [.response400close] ∨
      handle_upload ⟨some "application/x-cpio", none, none⟩ =
        [.interim100, .response400close]) :=
  ⟨(upload_precondition_order _).1 (by decide),
   (upload_precondition_order _).2.1 (by decide) (by decide),
   (upload_precondition_order _).2.2 (by decide) (by decide)⟩

/-! ### Helper lemmas for the chunked-reader theorem (C5) -/

theorem parseHexAux_append (l1 l2 : List Nat) (a : Nat) :
    parseHexAux (l1 ++ l2) a =
      match parseHexAux l1 a with
      | none => none
      | some a1 => parseHexAux l2 a1 := by
  induction l1 generalizing a with
  | nil => simp [parseHexAux]
  | cons b rest ih =>
    simp only [List.cons_append, parseHexAux]
    cases h : hexVal b
    · simp
    · simp [ih]

theorem hexVal_hexDigitChar (d : Nat) (hd : d < 16) :
    hexVal (hexDigitChar d) = some d := by
  interval_cases d <;> decide

theorem hexDigitChar_range (d : Nat) :
    (48 ≤ hexDigitChar d ∧ hexDigitChar d ≤ 57) ∨ 97 ≤ hexDigitChar d := by
  unfold hexDigitChar
  split <;> omega

theorem toHexAux_mem (f : Nat) : ∀ n b, b ∈ toHexAux f n →
    (48 ≤ b ∧ b ≤ 57) ∨ (97 ≤ b ∧ b ≤ 102) := by
  induction f with
  | zero =>
    intro n b hb
    cases n <;> simp [toHexAux] at hb
  | succ f ih =>
    intro n b hb
    cases n with
    | zero => simp [toHexAux] at hb
    | succ m =>
      simp only [toHexAux, List.mem_cons] at hb
      rcases hb with hb | hb
      · subst hb
        have h16 : (m + 1) % 16 < 16 := Nat.mod_lt _ (by omega)
        unfold hexDigitChar
        split <;> omega
      · exact ih _ _ hb

theorem toHex_mem (n b : Nat) (hb : b ∈ toHex n) :
    (48 ≤ b ∧ b ≤ 57) ∨ (97 ≤ b ∧ b ≤ 102) := by
  unfold toHex at hb
  split at hb
  · simp at hb
    subst hb
    left
    omega
  · rw [List.mem_reverse] at hb
    exact toHexAux_mem n n b hb

theorem toHex_not_space (n b : Nat) (hb : b ∈ toHex n) : isPySpace b = false := by
  rcases toHex_mem n b hb with ⟨h1, h2⟩ | ⟨h1, h2⟩ <;> simp [isPySpace] <;> omega

theorem parseHexAux_toHexAux : ∀ f n a, n ≤ f →
    parseHexAux (toHexAux f n).reverse a =
      some (a * 16 ^ (toHexAux f n).length + n) := by
  intro f
  induction f with
  | zero =>
    intro n a hn
    interval_cases n
    simp [toHexAux, parseHexAux]
  | succ f ih =>
    intro n a hn
    cases n with
    | zero => simp [toHexAux, parseHexAux]
    | succ m =>
      have hdiv : (m + 1) / 16 ≤ f := by
        have h1 : (m + 1) / 16 < m + 1 := Nat.div_lt_self (by omega) (by omega)
        omega
      have hcons : toHexAux (f + 1) (m + 1) =
          hexDigitChar ((m + 1) % 16) :: toHexAux f ((m + 1) / 16) := rfl
      rw [hcons, List.reverse_cons, parseHexAux_append, ih ((m + 1) / 16) a hdiv]
      show parseHexAux [hexDigitChar ((m + 1) % 16)]
          (a * 16 ^ (toHexAux f ((m + 1) / 16)).length + (m + 1) / 16) = _
      simp only [parseHexAux,
        hexVal_hexDigitChar ((m + 1) % 16) (Nat.mod_lt _ (by omega)),
        List.length_cons, Option.some.injEq, pow_succ, ← mul_assoc]
      generalize a * 16 ^ (toHexAux f ((m + 1) / 16)).length = X
      omega

theorem parseHex_toHex (n : Nat) : parseHex (toHex n) = some n := by
  cases n with
  | zero => rfl
  | succ m =>
    have hcons : toHexAux (m + 1) (m + 1) =
        hexDigitChar ((m + 1) % 16) :: toHexAux m ((m + 1) / 16) := rfl
    unfold toHex
    rw [if_neg (Nat.succ_ne_zero m)]
    unfold parseHex
    rw [if_neg (by rw [hcons]; simp)]
    rw [parseHexAux_toHexAux (m + 1) (m + 1) 0 le_rfl]
    simp

theorem readline_append (l r : List Nat) (hl : ∀ b ∈ l, b ≠ 10) :
    readline (l ++ 10 :: r) = (l ++ [10], r) := by
  induction l with
  | nil => simp [readline]
  | cons b bs ih =>
    have hb : b ≠ 10 := hl b (by simp)
    simp only [List.cons_append, readline, if_neg hb, List.append_eq]
    rw [ih (fun x hx => hl x (by simp [hx]))]

theorem dropWhile_of_forall_false (l : List Nat)
    (h : ∀ b ∈ l, isPySpace b = false) : l.dropWhile isPySpace = l := by
  cases l with
  | nil => rfl
  | cons b bs => simp [List.dropWhile_cons, h b (by simp)]

theorem pyRstrip_hexline (n : Nat) :
    pyRstrip (toHex n ++ [13, 10]) = toHex n := by
  unfold pyRstrip
  have h1 : (toHex n ++ [13, 10]).reverse = 10 :: 13 :: (toHex n).reverse := by
    simp
  rw [h1]
  have hsp10 : isPySpace 10 = true := rfl
  have hsp13 : isPySpace 13 = true := rfl
  rw [List.dropWhile_cons, hsp10, if_pos rfl, List.dropWhile_cons, hsp13,
    if_pos rfl,
    dropWhile_of_forall_false _
      (fun b hb => toHex_not_space n b (List.mem_reverse.mp hb)),
    List.reverse_reverse]

theorem readline_encodeChunk (c rest : List Nat) :
    readline (encodeChunk c ++ rest) =
      (toHex c.length ++ [13, 10], c ++ ([13, 10] ++ rest)) := by
  have hsplit : encodeChunk c ++ rest =
      (toHex c.length ++ [13]) ++ 10 :: (c ++ ([13, 10] ++ rest)) := by
    simp [encodeChunk]
  rw [hsplit, readline_append]
  · simp
  · intro b hb
    rcases List.mem_append.mp hb with hb | hb
    · rcases toHex_mem _ b hb with ⟨h1, h2⟩ | ⟨h1, h2⟩ <;> omega
    · simp at hb
      omega

theorem readline_crlf (rest : List Nat) :
    readline ([13, 10] ++ rest) = ([13, 10], rest) := by
  have h1 : ([13, 10] : List Nat) ++ rest = [13] ++ 10 :: rest := rfl
  rw [h1, readline_append [13] rest (by intro b hb; simp at hb; omega)]
  rfl

theorem nextChunk_encodeChunk (c rest : List Nat) (ch : Option (List Nat))
    (t : Nat) (hch : ch = none ∨ ch = some []) :
    nextChunk ⟨encodeChunk c ++ rest, ch, t⟩ = some ⟨rest, some c, t⟩ := by
  rcases hch with h | h <;> subst h <;>
  · simp only [nextChunk, readline_encodeChunk, pyRstrip_hexline, parseHex_toHex]
    rw [if_pos (by simp)]
    simp only [List.take_left, List.drop_left, readline_crlf]

theorem readinto_encodeChunk (c rest : List Nat) (ch : Option (List Nat))
    (t B : Nat) (hch : ch = none ∨ ch = some []) (hB : c.length ≤ B) :
    readinto ⟨encodeChunk c ++ rest, ch, t⟩ B =
      some (c, ⟨rest, some [], t + c.length⟩) := by
  simp only [readinto, nextChunk_encodeChunk c rest ch t hch, Option.getD_some]
  rw [Nat.min_eq_left hB, List.take_length, List.drop_length]

theorem encodeChunks_cons (c : List Nat) (cs : List (List Nat)) :
    encodeChunks (c :: cs) = encodeChunk c ++ encodeChunks cs := by
  simp [encodeChunks, List.append_assoc]

theorem encodeChunks_nil_eq : encodeChunks [] = encodeChunk [] ++ [] := by
  rfl

theorem readinto_terminator (ch : Option (List Nat)) (t B : Nat)
    (hch : ch = none ∨ ch = some []) :
    readinto ⟨encodeChunks [], ch, t⟩ B = some ([], ⟨[], some [], t⟩) := by
  rw [encodeChunks_nil_eq,
    readinto_encodeChunk [] [] ch t B hch (by simp)]
  simp

theorem drain_succ (fuel : Nat) (s : ChunkedState) (B : Nat) :
    drain (fuel + 1) s B =
      match readinto s B with
      | none => none
      | some (out, s1) =>
        if out.isEmpty then some ([], s1)
        else
          match drain fuel s1 B with
          | none => none
          | some (rest, s2) => some (out ++ rest, s2) := rfl

theorem drain_encodeChunks (cs : List (List Nat)) :
    ∀ (ch : Option (List Nat)) (t B : Nat),
    (ch = none ∨ ch = some []) →
    (∀ c ∈ cs, c ≠ []) → (∀ c ∈ cs, c.length ≤ B) →
    drain (cs.length + 1) ⟨encodeChunks cs, ch, t⟩ B =
      some (cs.flatten, ⟨[], some [], t + (cs.map List.length).sum⟩) := by
  induction cs with
  | nil =>
    intro ch t B hch _ _
    simp only [List.length_nil, drain_succ, readinto_terminator ch t B hch]
    simp
  | cons c cs ih =>
    intro ch t B hch hne hB
    have hc : c ≠ [] := hne c (by simp)
    have hcB : c.length ≤ B := hB c (by simp)
    have hcE : c.isEmpty = false := by
      cases c
      · exact absurd rfl hc
      · rfl
    simp only [List.length_cons]
    rw [drain_succ, encodeChunks_cons,
      readinto_encodeChunk c (encodeChunks cs) ch t B hch hcB]
    dsimp only
    rw [hcE]
    rw [if_neg (by simp)]
    rw [ih (some []) (t + c.length) B (Or.inr rfl)
      (fun x hx => hne x (by simp [hx])) (fun x hx => hB x (by simp [hx]))]
    dsimp only
    simp [Nat.add_assoc]

/-- Claim C5: for every well-formed chunked body — the wire encoding
`encodeChunks cs` of a list of non-empty chunks, i.e. hex-length lines
each followed by exactly that many payload octets and a trailing CRLF,
terminated by the zero-length chunk — the reader delivers to the archive
decoder exactly the concatenation `cs.flatten` of the chunk payloads in
order, its `total` counter ends at the sum of the chunk lengths, and the
loop stops because `readinto` delivers zero bytes exactly at the
zero-length chunk (with the whole stream consumed, `rfile = []`). `B` is
the decoder's buffer size; `cs.length + 1` calls suffice, the last one
being the end-of-stream signal. -/
theorem chunked_reader_delivers_concatenation (cs : List (List Nat)) (B : Nat)
    (hne : ∀ c ∈ cs, c ≠ []) (hB : ∀ c ∈ cs, c.length ≤ B) :
    drain (cs.length + 1) ⟨encodeChunks cs, none, 0⟩ B =
      some (cs.flatten, ⟨[], some [], (cs.map List.length).sum⟩) := by
  have h := drain_encodeChunks cs none 0 B (Or.inl rfl) hne hB
  simpa using h

/-- Witness for C5 on the two-chunk body `2 CRLF "Hi" CRLF 1 CRLF "!" CRLF
0 CRLF CRLF` read with a 2-byte buffer. -/
theorem chunked_reader_delivers_concatenation_witness :
    drain 3 ⟨encodeChunks [[72, 105], [33]], none, 0⟩ 2 =
      some ([72, 105, 33], ⟨[], some [], 3⟩) :=
  chunked_reader_delivers_concatenation [[72, 105], [33]] 2
    (by decide) (by decide)

end Opendrop
